import Mathlib

/-!
Verification of the seat-allocation decision engine
(`seat_allocation_app/allocator.py` and its orchestrator callers).

The Python source is shallowly embedded: dataclasses become structures,
`Counter` objects become insertion-ordered association lists (Python dicts
preserve insertion order and `Counter.most_common` breaks ties by that order),
Python `float` scores become exact rationals (the design constants 0.25 and
0.001 are the rationals 1/4 and 1/1000), and `datetime.utcnow()` timestamps
become an explicit `now : Nat` parameter.  Python string comparison is
code-point lexicographic and is embedded as such.
-/

namespace SeatAlloc

set_option maxRecDepth 100000

attribute [local semireducible] Rat.mul Rat.add Rat.sub Rat.inv

/-- Seat status, `models.py` line 8: Literal of available / occupied. -/
inductive SeatStatus where
  | available
  | occupied
deriving DecidableEq, Repr

/-- Employee record, `models.py` lines 11-19. -/
structure Employee where
  employee_id : String
  card_id : String
  name : String
  email : String
  phone : String
  department : String
  team : String
deriving DecidableEq, Repr

/-- Access event, `models.py` lines 22-26; `entered_at` is a timestamp
(embedded as `Nat`; `datetime.isoformat` ordering agrees with it). -/
structure AccessEvent where
  employee_id : String
  card_id : String
  entered_at : Nat
deriving DecidableEq, Repr

/-- Seat record, `models.py` lines 29-40. -/
structure Seat where
  seat_id : String
  building : String
  floor : String
  zone : String
  department : String
  team_cluster : String
  status : SeatStatus := SeatStatus.available
  occupied_by : Option String := none
  occupied_department : Option String := none
  occupied_team : Option String := none
deriving DecidableEq, Repr

/-- Assignment record, `models.py` lines 43-51; `assigned_at` embedded as `Nat`. -/
structure Assignment where
  employee_id : String
  seat_id : String
  building : String
  floor : String
  zone : String
  reasoning : String
  assigned_at : Nat
deriving DecidableEq, Repr

/-- Zone key: the `(building, floor, zone)` triple used throughout `allocator.py`. -/
abbrev ZoneKey := String × String × String

/-- Zone key of a seat (`allocator.py` line 35). -/
def zoneOf (s : Seat) : ZoneKey := (s.building, s.floor, s.zone)

/-- Floor key of a seat (`allocator.py` line 36). -/
def floorOf (s : Seat) : String × String := (s.building, s.floor)

/-- The `(building, floor)` prefix of a zone key (`zone_key[:2]` in the source). -/
def floorOfZone (z : ZoneKey) : String × String := (z.1, z.2.1)

/-- Python `seat.occupied_department or seat.department` (`allocator.py` line 37):
`or` falls back on falsy values, i.e. on `None` and on the empty string. -/
def effDept (s : Seat) : String :=
  match s.occupied_department with
  | some d => if d = "" then s.department else d
  | none => s.department

/-- Python `seat.occupied_team or seat.team_cluster` (`allocator.py` line 38). -/
def effTeam (s : Seat) : String :=
  match s.occupied_team with
  | some t => if t = "" then s.team_cluster else t
  | none => s.team_cluster

/-- Occupied slice of the inventory (`allocator.py` line 25). -/
def occupiedSeats (all : List Seat) : List Seat :=
  all.filter (fun s => decide (s.status = SeatStatus.occupied))

/-- Available slice of the inventory (`allocator.py` line 26). -/
def availableSeats (all : List Seat) : List Seat :=
  all.filter (fun s => decide (s.status = SeatStatus.available))

/-- Insertion into an insertion-ordered duplicate-free list; embeds adding an
element to a Python `set` whose iteration order we track as first-insertion
order (only ever needed where the set has at most one element, or for sizes). -/
def setAdd (l : List String) (d : String) : List String :=
  if d ∈ l then l else l ++ [d]

/-- First-seen key order of a stream of keys: the insertion order of a Python
dict or `Counter` built by iterating the stream. -/
def firstSeen {κ : Type} [DecidableEq κ] (ks : List κ) : List κ :=
  ks.foldl (fun acc k => if k ∈ acc then acc else acc ++ [k]) []

/-- Argmax over keys listed in insertion order, keeping the earliest key on
ties: the semantics of `Counter.most_common(1)[0][0]` (heapq.nlargest is
documented equivalent to a stable descending sort). -/
def argmaxFirst {κ : Type} (f : κ → Nat) : List κ → Option κ
  | [] => none
  | k :: ks => some (ks.foldl (fun b k2 => if f k2 > f b then k2 else b) k)

/-- Does an occupied seat count toward `dept_zone_counts` (`allocator.py` line 44)? -/
def deptMatches (emp : Employee) (s : Seat) : Bool :=
  decide (effDept s = emp.department)

/-- Does an occupied seat count toward `team_zone_counts` (`allocator.py` lines 44-47)?
Requires the department match as well. -/
def teamMatches (emp : Employee) (s : Seat) : Bool :=
  deptMatches emp s && decide (effTeam s = emp.team)

/-- Count behind `team_zone_counts[z]` (`allocator.py` lines 28, 44-47). -/
def teamZoneCount (emp : Employee) (all : List Seat) (z : ZoneKey) : Nat :=
  ((occupiedSeats all).filter (fun s => teamMatches emp s && decide (zoneOf s = z))).length

/-- Count behind `dept_zone_counts[z]` (`allocator.py` lines 29, 44-45). -/
def deptZoneCount (emp : Employee) (all : List Seat) (z : ZoneKey) : Nat :=
  ((occupiedSeats all).filter (fun s => deptMatches emp s && decide (zoneOf s = z))).length

/-- Count behind `zone_load[z]` (`allocator.py` lines 30, 40). -/
def zoneLoad (all : List Seat) (z : ZoneKey) : Nat :=
  ((occupiedSeats all).filter (fun s => decide (zoneOf s = z))).length

/-- Count behind `floor_load[f]` (`allocator.py` lines 31, 41). -/
def floorLoad (all : List Seat) (f : String × String) : Nat :=
  ((occupiedSeats all).filter (fun s => decide (floorOf s = f))).length

/-- Keys of `floor_load` in insertion order. -/
def floorKeys (all : List Seat) : List (String × String) :=
  firstSeen ((occupiedSeats all).map floorOf)

/-- The set `zone_departments[z]` (`allocator.py` lines 32, 42) as an
insertion-ordered duplicate-free list of actual-or-template departments
of the occupied seats of zone `z`. -/
def zoneDeptList (all : List Seat) (z : ZoneKey) : List String :=
  ((occupiedSeats all).filter (fun s => decide (zoneOf s = z))).foldl
    (fun acc s => setAdd acc (effDept s)) []

/-- Keys of `team_zone_counts` in insertion order. -/
def teamZoneKeys (emp : Employee) (all : List Seat) : List ZoneKey :=
  firstSeen (((occupiedSeats all).filter (fun s => teamMatches emp s)).map zoneOf)

/-- Keys of `dept_zone_counts` in insertion order. -/
def deptZoneKeys (emp : Employee) (all : List Seat) : List ZoneKey :=
  firstSeen (((occupiedSeats all).filter (fun s => deptMatches emp s)).map zoneOf)

/-- `team_anchor` (`allocator.py` line 49): most common key of
`team_zone_counts`, or `None` when that counter is empty.  This is the zone
where the employee's exact (department, team) pair already clusters, the
`teamDeptAnchor` of the specification. -/
def teamAnchor (emp : Employee) (all : List Seat) : Option ZoneKey :=
  argmaxFirst (teamZoneCount emp all) (teamZoneKeys emp all)

/-- `dept_anchor` (`allocator.py` line 50): most common key of `dept_zone_counts`. -/
def deptAnchor (emp : Employee) (all : List Seat) : Option ZoneKey :=
  argmaxFirst (deptZoneCount emp all) (deptZoneKeys emp all)

/-- Size of `zone_departments[z] | set([d])`: the set is duplicate-free, so the
union has the list's length, plus one when `d` is new. -/
def deptCardWith (l : List String) (d : String) : Nat :=
  if d ∈ l then l.length else l.length + 1

/-- Cap test of one seat, the body of `enforce_zone_department_cap`
(`allocator.py` line 68). -/
def capOk (emp : Employee) (all : List Seat) (s : Seat) : Bool :=
  decide (deptCardWith (zoneDeptList all (zoneOf s)) emp.department ≤ 2)

/-- `enforce_zone_department_cap` (`allocator.py` lines 64-69). -/
def enforce_zone_department_cap (emp : Employee) (all : List Seat) (seats : List Seat) :
    List Seat :=
  seats.filter (capOk emp all)

/-- Anchor-lock pass (`allocator.py` lines 54-62): when a department anchor
exists and some raw candidate sits in it, restrict to that zone. -/
def lockPass (emp : Employee) (all : List Seat) (cands : List Seat) : List Seat × Bool :=
  match deptAnchor emp all with
  | some a =>
    let dz := cands.filter (fun s => decide (zoneOf s = a))
    if dz.isEmpty then (cands, false) else (dz, true)
  | none => (cands, false)

/-- Lock, cap and controlled fallback (`allocator.py` lines 52-78); returns the
surviving candidates plus the `dept_locked` and `lock_relaxed` flags. -/
def filterStage (emp : Employee) (all : List Seat) (cands : List Seat) :
    List Seat × Bool × Bool :=
  let locked := lockPass emp all cands
  let c2 := enforce_zone_department_cap emp all locked.1
  if c2.isEmpty && locked.2 then
    (enforce_zone_department_cap emp all cands, locked.2, true)
  else
    (c2, locked.2, false)

/-- Count behind `available_same_dept_by_zone[z]` (`allocator.py` lines 84-89):
available seats whose template department matches the employee's. -/
def availableSameDept (emp : Employee) (all : List Seat) (z : ZoneKey) : Nat :=
  ((availableSeats all).filter
    (fun s => decide (s.department = emp.department) && decide (zoneOf s = z))).length

/-- Count behind `available_same_team_by_zone[z]` (`allocator.py` lines 84-91). -/
def availableSameTeam (emp : Employee) (all : List Seat) (z : ZoneKey) : Nat :=
  ((availableSeats all).filter
    (fun s => decide (s.department = emp.department) &&
      decide (s.team_cluster = emp.team) && decide (zoneOf s = z))).length

/-- Last dash-separated chunk of a character list: the chunk accumulator is
reset at every dash, so the final accumulator is the last chunk (possibly
empty), exactly the `[-1]` element of Python `split("-")`. -/
def lastChunk : List Char → List Char → List Char
  | [], acc => acc.reverse
  | c :: cs, acc => if c = '-' then lastChunk cs [] else lastChunk cs (c :: acc)

/-- Python `seat_id.split("-")[-1]`: the last dash-separated chunk, which
always exists. -/
def suffixOfId (i : String) : String :=
  String.mk (lastChunk i.data [])

/-- The seat-id suffix of `allocator.py` line 105. -/
def seatSuffix (s : Seat) : String := suffixOfId s.seat_id

/-- Python `str.isdigit` restricted to ASCII digits: true on non-empty
all-digit strings. -/
def isDigitString (str : String) : Bool :=
  !(str.data.isEmpty) && str.data.all Char.isDigit

/-- Python `int` on a digit string. -/
def natOfDigits (str : String) : Nat :=
  str.data.foldl (fun n c => n * 10 + (c.toNat - 48)) 0

/-- Numeric suffix of a seat id when `suffix.isdigit()`. -/
def suffixNumOfId (i : String) : Option Nat :=
  if isDigitString (suffixOfId i) then some (natOfDigits (suffixOfId i)) else none

/-- Numeric seat suffix when `suffix.isdigit()` (`allocator.py` lines 106-107). -/
def seatSuffixNum (s : Seat) : Option Nat := suffixNumOfId s.seat_id

/-- Numeric suffixes, in inventory order, of the occupied seats of zone `z`
matching the employee's exact (department, team) pair
(`allocator.py` lines 112-117). -/
def teamSuffixList (emp : Employee) (all : List Seat) (z : ZoneKey) : List Nat :=
  (occupiedSeats all).filterMap
    (fun s => if teamMatches emp s && decide (zoneOf s = z) then seatSuffixNum s else none)

/-- `team_suffix_totals_by_zone[z]` (`allocator.py` line 116). -/
def teamSuffixTotal (emp : Employee) (all : List Seat) (z : ZoneKey) : Nat :=
  (teamSuffixList emp all z).sum

/-- `team_suffix_counts_by_zone[z]` (`allocator.py` line 117). -/
def teamSuffixCount (emp : Employee) (all : List Seat) (z : ZoneKey) : Nat :=
  (teamSuffixList emp all z).length

/-- `team_max_suffix_by_zone.get(z, 0)` (`allocator.py` line 118):
running maximum starting from 0. -/
def teamMaxSuffix (emp : Employee) (all : List Seat) (z : ZoneKey) : Nat :=
  (teamSuffixList emp all z).foldl max 0

/-- Numeric suffixes of occupied seats of zone `z` whose actual-or-template
department is `d` (`allocator.py` lines 105-110). -/
def zoneDeptSuffixes (all : List Seat) (z : ZoneKey) (d : String) : List Nat :=
  (occupiedSeats all).filterMap
    (fun s => if decide (zoneOf s = z) && decide (effDept s = d) then seatSuffixNum s else none)

/-- `zone_dept_min_suffix[z].get(d)` (`allocator.py` lines 97, 105-110):
the minimum numeric suffix, or none. -/
def zoneDeptMinSuffix (all : List Seat) (z : ZoneKey) (d : String) : Option Nat :=
  (zoneDeptSuffixes all z d).foldl
    (fun acc n => match acc with
      | none => some n
      | some m => some (min m n)) none

/-- Insertion into an insertion-ordered `Counter` association list. -/
def counterAdd {κ : Type} [DecidableEq κ] : List (κ × Nat) → κ → List (κ × Nat)
  | [], k => [(k, 1)]
  | (k0, n) :: rest, k =>
    if k0 = k then (k0, n + 1) :: rest else (k0, n) :: counterAdd rest k

/-- `dept_team_counts_by_zone[z]` (`allocator.py` lines 96, 102-103): a
`Counter` over actual-or-template teams of the zone's occupied seats whose
actual-or-template department matches the employee's. -/
def deptTeamPairs (emp : Employee) (all : List Seat) (z : ZoneKey) : List (String × Nat) :=
  ((occupiedSeats all).filterMap
    (fun s => if deptMatches emp s && decide (zoneOf s = z) then some (effTeam s) else none)).foldl
    counterAdd []

/-- Stable insertion placing `x` before the first element `y` with `le y x`;
folding it from the right is a stable sort that puts larger keys first, the
semantics of Python `sorted(key, reverse=True)`. -/
def insertSortedBy {α : Type} (le : α → α → Bool) (x : α) : List α → List α
  | [] => [x]
  | y :: ys => if le y x then x :: y :: ys else y :: insertSortedBy le x ys

/-- Stable descending sort, the embedding of `sorted(..., key=..., reverse=True)`
and of `Counter.most_common()` (which is such a sort on counts). -/
def stableSortBy {α : Type} (le : α → α → Bool) (l : List α) : List α :=
  l.foldr (insertSortedBy le) []

/-- `preferred_department_slot` (`allocator.py` lines 146-161). -/
def preferred_department_slot (emp : Employee) (all : List Seat) (z : ZoneKey) :
    Option Nat :=
  let cur := zoneDeptList all z
  if cur.isEmpty then some 0
  else if emp.department ∈ cur then
    let employee_min := (zoneDeptMinSuffix all z emp.department).getD 1
    some (if employee_min ≤ 50 then 0 else 1)
  else if 2 ≤ cur.length then none
  else
    let existing_dept := cur.headD ""
    let existing_min := (zoneDeptMinSuffix all z existing_dept).getD 1
    some (if existing_min ≤ 50 then 1 else 0)

/-- `preferred_team_section` (`allocator.py` lines 163-181). -/
def preferred_team_section (emp : Employee) (all : List Seat) (s : Seat) :
    Option (Nat × Nat) :=
  let z := zoneOf s
  match preferred_department_slot emp all z with
  | none => none
  | some dept_slot =>
    let section_ranges : (Nat × Nat) × (Nat × Nat) :=
      if dept_slot = 0 then ((1, 25), (26, 50)) else ((51, 75), (76, 100))
    let ordered_teams :=
      ((stableSortBy (fun a b => decide (a.2 ≤ b.2)) (deptTeamPairs emp all z)).map
        Prod.fst).filter (fun t => decide (t ≠ ""))
    let team_slot : Nat :=
      match ordered_teams.findIdx? (fun t => decide (t = emp.team)) with
      | some i => i % 2
      | none => ordered_teams.length % 2
    some (if team_slot = 0 then section_ranges.1 else section_ranges.2)

/-- Is `z`'s floor different from the anchor's floor, when the anchor exists
(the penalties of `allocator.py` lines 200-203)? -/
def anchorFloorDiff (a : Option ZoneKey) (z : ZoneKey) : Bool :=
  match a with
  | some ak => decide (floorOfZone z ≠ floorOfZone ak)
  | none => false

/-- `base_score` (`allocator.py` lines 183-232), with exact rational arithmetic
in place of Python floats (0.25 = 1/4 and 0.001 = 1/1000). -/
def base_score (emp : Employee) (all : List Seat) (s : Seat) : ℚ :=
  let z := zoneOf s
  let ta := teamAnchor emp all
  let da := deptAnchor emp all
  let s1 : ℚ := (if ta = some z then 10000 else 0)
  let s2 := s1 + (teamZoneCount emp all z : ℚ) * 1200
  let s3 := s2 + (if s.team_cluster = emp.team then (500 : ℚ) else 0)
  let s4 := s3 + (if da = some z then (8500 : ℚ) else 0)
  let s5 := s4 + (deptZoneCount emp all z : ℚ) * 600
  let s6 := s5 + (if s.department = emp.department then (80 : ℚ) else 0)
  let s7 := s6 + (zoneLoad all z : ℚ) * 450
  let s8 := s7 + ((zoneDeptList all z).length : ℚ) * 700
  let s9 := s8 - (if anchorFloorDiff ta z then (180 : ℚ) else 0)
  let s10 := s9 - (if anchorFloorDiff da z then (220 : ℚ) else 0)
  let s11 := s10 -
    (match da with
     | some a => if z ≠ a ∧ 0 < availableSameDept emp all a then (3500 : ℚ) else 0
     | none => 0)
  match seatSuffixNum s with
  | none => s11
  | some seat_num =>
    let s12 := s11 +
      (match preferred_team_section emp all s with
       | some sec => if sec.1 ≤ seat_num ∧ seat_num ≤ sec.2 then (300 : ℚ) else 0
       | none => 0)
    let s13 := s12 +
      (match preferred_department_slot emp all z with
       | some dept_slot =>
         let dept_half : Nat × Nat := if dept_slot = 0 then (1, 50) else (51, 100)
         if dept_half.1 ≤ seat_num ∧ seat_num ≤ dept_half.2 then (700 : ℚ) else 0
       | none => 0)
    let s14 := s13 -
      (if teamSuffixCount emp all z ≠ 0 then
        |(seat_num : ℚ) - (teamSuffixTotal emp all z : ℚ) / (teamSuffixCount emp all z : ℚ)| *
          (1 / 4)
       else 0)
    let s15 := s14 +
      (if 0 < teamSuffixCount emp all z ∧ teamMaxSuffix emp all z + 1 = seat_num then
        (2600 : ℚ)
       else 0)
    s15 - (seat_num : ℚ) * (1 / 1000)

/-- `lookahead_score` (`allocator.py` lines 234-238); Python
`max(0, n - 1)` is truncated subtraction on these non-negative counts. -/
def lookahead_score (emp : Employee) (all : List Seat) (s : Seat) : ℚ :=
  let z := zoneOf s
  ((availableSameTeam emp all z - 1 : Nat) : ℚ) * 100 +
    ((availableSameDept emp all z - 1 : Nat) : ℚ) * 65

/-- Code-point lexicographic comparison of char lists (Python string `<`). -/
def charsLt : List Char → List Char → Bool
  | [], [] => false
  | [], _ :: _ => true
  | _ :: _, [] => false
  | c :: cs, d :: ds =>
    decide (c.toNat < d.toNat) || (decide (c.toNat = d.toNat) && charsLt cs ds)

/-- Python string comparison, code-point lexicographic. -/
def strLt (a b : String) : Bool := charsLt a.data b.data

/-- Python `<` on `(building, floor)` pairs. -/
def pairLt (a b : String × String) : Bool :=
  strLt a.1 b.1 || (decide (a.1 = b.1) && strLt a.2 b.2)

/-- Python `min` over a list of pairs: the first minimal element. -/
def minPair : List (String × String) → String × String
  | [] => ("", "")
  | x :: xs => xs.foldl (fun m y => if pairLt y m then y else m) x

/-- `preferred_floor` (`allocator.py` lines 124-134): precedence is the
department anchor when the lock engaged, else the team anchor, else the
department anchor, else the most-loaded floor, else the smallest candidate
floor (the source only reaches the last arm with a non-empty candidate list). -/
def preferred_floor (emp : Employee) (all : List Seat) (dept_locked : Bool)
    (cands : List Seat) : String × String :=
  match dept_locked, deptAnchor emp all, teamAnchor emp all with
  | true, some da, _ => floorOfZone da
  | _, _, some ta => floorOfZone ta
  | _, some da, _ => floorOfZone da
  | _, none, none =>
    match argmaxFirst (floorLoad all) (floorKeys all) with
    | some f => f
    | none => minPair (cands.map floorOf)

/-- Soft floor narrowing (`allocator.py` lines 136-139): restrict to the
preferred floor when some candidate is on it; the Bool is `floor_preferred`. -/
def narrowFloor (pf : String × String) (cands : List Seat) : List Seat × Bool :=
  match cands.filter (fun s => decide (floorOf s = pf)) with
  | [] => (cands, false)
  | a :: l => (a :: l, true)

/-- Soft building narrowing (`allocator.py` lines 141-144) applied after the
floor pass; the added Bool is `building_preferred`. -/
def narrowBuilding (pf : String × String) (c1 : List Seat × Bool) :
    List Seat × Bool × Bool :=
  match c1.1.filter (fun s => decide (s.building = pf.1)) with
  | [] => (c1.1, c1.2, false)
  | a :: l => (a :: l, c1.2, true)

/-- Soft floor-then-building narrowing (`allocator.py` lines 120-144); returns
the narrowed candidates plus the `floor_preferred` and `building_preferred`
flags. -/
def narrowStage (pf : String × String) (cands : List Seat) :
    List Seat × Bool × Bool :=
  narrowBuilding pf (narrowFloor pf cands)

/-- Candidates surviving the lock / cap / fallback stage
(`candidate_seats` after `allocator.py` line 78). -/
def stageCands (emp : Employee) (cands all : List Seat) : List Seat :=
  (filterStage emp all cands).1

/-- The `dept_locked` flag (`allocator.py` lines 55, 62). -/
def stageLocked (emp : Employee) (cands all : List Seat) : Bool :=
  (filterStage emp all cands).2.1

/-- The `lock_relaxed` flag (`allocator.py` lines 75, 78). -/
def stageRelaxed (emp : Employee) (cands all : List Seat) : Bool :=
  (filterStage emp all cands).2.2

/-- The `preferred_floor` value computed inside `select_seat`. -/
def stagePF (emp : Employee) (cands all : List Seat) : String × String :=
  preferred_floor emp all (stageLocked emp cands all) (stageCands emp cands all)

/-- Candidates after the soft floor/building narrowing
(`candidate_seats` after `allocator.py` line 144). -/
def stageNarrowed (emp : Employee) (cands all : List Seat) : List Seat :=
  (narrowStage (stagePF emp cands all) (stageCands emp cands all)).1

/-- The `floor_preferred` flag (`allocator.py` lines 121, 139). -/
def stageFloorPref (emp : Employee) (cands all : List Seat) : Bool :=
  (narrowStage (stagePF emp cands all) (stageCands emp cands all)).2.1

/-- The `building_preferred` flag (`allocator.py` lines 122, 144). -/
def stageBuildingPref (emp : Employee) (cands all : List Seat) : Bool :=
  (narrowStage (stagePF emp cands all) (stageCands emp cands all)).2.2

/-- Lookup in the dict `base_scores` of `allocator.py` line 240: a dict
comprehension keyed by seat id keeps the last entry of each id. -/
def scoreOf (emp : Employee) (cands all : List Seat) (s : Seat) : ℚ :=
  match ((stageNarrowed emp cands all).filter
      (fun t => decide (t.seat_id = s.seat_id))).getLast? with
  | some t => base_score emp all t
  | none => 0

/-- The `frontier` (`allocator.py` line 241): candidates stably sorted by
descending base score. -/
def frontier (emp : Employee) (cands all : List Seat) : List Seat :=
  stableSortBy (fun a b => decide (scoreOf emp cands all a ≤ scoreOf emp cands all b))
    (stageNarrowed emp cands all)

/-- The `beam` (`allocator.py` line 242): top `beam_width` of the frontier. -/
def beam (emp : Employee) (cands all : List Seat) (bw : Nat) : List Seat :=
  (frontier emp cands all).take bw

/-- Combined key `base_scores[id] + lookahead_scores[id]` of
`allocator.py` lines 247-252, with the dict-by-seat-id lookups. -/
def totalOf (emp : Employee) (cands all : List Seat) (bw : Nat) (s : Seat) : ℚ :=
  scoreOf emp cands all s +
    (match ((beam emp cands all bw).filter
        (fun t => decide (t.seat_id = s.seat_id))).getLast? with
     | some t => lookahead_score emp all t
     | none => 0)

/-- `ranked_with_lookahead` (`allocator.py` lines 248-252). -/
def ranked_with_lookahead (emp : Employee) (cands all : List Seat) (bw : Nat) :
    List Seat :=
  stableSortBy
    (fun a b => decide (totalOf emp cands all bw a ≤ totalOf emp cands all bw b))
    (beam emp cands all bw)

/-- The `selected` seat (`allocator.py` lines 254-258), none when the beam is
empty (`allocator.py` lines 244-245). -/
def selectedSeat (emp : Employee) (cands all : List Seat) (bw : Nat) : Option Seat :=
  match ranked_with_lookahead emp cands all bw with
  | [] => none
  | top :: _ =>
    match deptAnchor emp all with
    | some a =>
      match (ranked_with_lookahead emp cands all bw).filter
          (fun s => decide (zoneOf s = a)) with
      | [] => some top
      | a0 :: _ => if 0 < availableSameDept emp all a then some a0 else some top
    | none => some top

/-- An ASCII apostrophe, used by Python repr of strings inside tuples. -/
def q : String := String.singleton (Char.ofNat 39)

/-- Python str() of a zone-key tuple, as interpolated into the rationale. -/
def fmtZone (z : ZoneKey) : String :=
  "(" ++ q ++ z.1 ++ q ++ ", " ++ q ++ z.2.1 ++ q ++ ", " ++ q ++ z.2.2 ++ q ++ ")"

/-- Python str() of an optional zone key. -/
def fmtOptZone : Option ZoneKey → String
  | none => "None"
  | some z => fmtZone z

/-- The rationale f-string (`allocator.py` lines 259-268). -/
def reasoningText (selId : String) (ta da : Option ZoneKey)
    (locked relaxed fpref bpref : Bool) : String :=
  "Beam search scoring: team_together > dept_zone_together > utilization; " ++
  "selected=" ++ selId ++ "; team_anchor=" ++ fmtOptZone ta ++
  "; dept_anchor=" ++ fmtOptZone da ++ "; " ++
  "dept_zone_lock=" ++ (if locked then "on" else "off") ++ "; " ++
  "dept_zone_lock_relaxed=" ++ (if relaxed then "yes" else "no") ++ "; " ++
  "dept_lock_relax_mode=" ++ (if relaxed then "cap_valid_fallback" else "n/a") ++ "; " ++
  "domain_reduction_floor_pref=" ++ (if fpref then "yes" else "no") ++ "; " ++
  "domain_reduction_building_pref=" ++ (if bpref then "yes" else "no") ++ "; " ++
  "section_heuristic=on"

/-- `SeatAllocator.select_seat` (`allocator.py` lines 16-278).  `bw` is the
allocator's `beam_width` field (default 40) and `now` the `datetime.utcnow()`
timestamp read when building the assignment. -/
def select_seat (emp : Employee) (candidate_seats all_seats : List Seat)
    (bw : Nat) (now : Nat) : Option Assignment :=
  if candidate_seats.isEmpty then none
  else if (stageCands emp candidate_seats all_seats).isEmpty then none
  else
    match selectedSeat emp candidate_seats all_seats bw with
    | none => none
    | some sel =>
      some
        { employee_id := emp.employee_id
          seat_id := sel.seat_id
          building := sel.building
          floor := sel.floor
          zone := sel.zone
          reasoning :=
            reasoningText sel.seat_id (teamAnchor emp all_seats)
              (deptAnchor emp all_seats) (stageLocked emp candidate_seats all_seats)
              (stageRelaxed emp candidate_seats all_seats)
              (stageFloorPref emp candidate_seats all_seats)
              (stageBuildingPref emp candidate_seats all_seats)
          assigned_at := now }

/-- `SeatInventoryClient.__init__` (`seat_inventory.py` line 10) builds a dict
keyed by seat id: keys keep first-occurrence order, values are the last seat
carrying each id. -/
def inventorySeats (seats : List Seat) : List Seat :=
  (firstSeen (seats.map (fun s => s.seat_id))).filterMap
    (fun i => (seats.filter (fun s => decide (s.seat_id = i))).getLast?)

/-- `SeatInventoryClient.available_seats` (`seat_inventory.py` lines 12-13),
applied to the stored dict values. -/
def available_seats (inv : List Seat) : List Seat := availableSeats inv

/-- `SeatInventoryClient.all_seats` (`seat_inventory.py` lines 32-33). -/
def all_seats (inv : List Seat) : List Seat := inv

/-- `SeatInventoryClient.mark_occupied` (`seat_inventory.py` lines 25-30). -/
def mark_occupied (inv : List Seat) (seat_id employee_id department team : String) :
    List Seat :=
  inv.map (fun s =>
    if s.seat_id = seat_id then
      { s with
        status := SeatStatus.occupied
        occupied_by := some employee_id
        occupied_department := some department
        occupied_team := some team }
    else s)

/-- `EmployeeDirectoryClient.get_employee` (`employee_directory.py` lines 10-11)
over the dict built in `__init__` (last record per id wins). -/
def get_employee (dir : List Employee) (employee_id : String) : Option Employee :=
  (dir.filter (fun e => decide (e.employee_id = employee_id))).getLast?

/-- `ProcessOrchestrator.process_event` (`process_orchestrator.py` lines 45-89),
restricted to its decision-relevant state: the employee directory and the
inventory seats.  Logging, the two notifiers and the IoT dispatch perform no
mutation of either, so the embedding returns the produced assignment (if any)
and the post-event inventory. -/
def process_event (dir : List Employee) (bw : Nat) (inv : List Seat)
    (ev : AccessEvent) (now : Nat) : Option Assignment × List Seat :=
  match get_employee dir ev.employee_id with
  | none => (none, inv)
  | some emp =>
    match select_seat emp (available_seats inv) (all_seats inv) bw now with
    | none => (none, inv)
    | some assignment =>
      (some assignment,
        mark_occupied inv assignment.seat_id emp.employee_id emp.department emp.team)

/-- Python exceptions that the embedded orchestrator can surface. -/
inductive PyError where
  | attributeError
deriving DecidableEq, Repr

/-- Sort key of `ProcessOrchestrator._order_batch` (`process_orchestrator.py`
lines 31-43); the isoformat timestamp string is embedded by its `Nat` value,
whose order isoformat preserves. -/
def orderBatchKey (dir : List Employee) (ev : AccessEvent) :
    String × String × Nat × String :=
  match get_employee dir ev.employee_id with
  | none => ("~", "~", ev.entered_at, ev.employee_id)
  | some e => (e.department, e.team, ev.entered_at, e.employee_id)

/-- Strict ascending comparison of batch keys (Python tuple `<`). -/
def batchKeyLt (a b : String × String × Nat × String) : Bool :=
  strLt a.1 b.1 ||
    (decide (a.1 = b.1) &&
      (strLt a.2.1 b.2.1 ||
        (decide (a.2.1 = b.2.1) &&
          (decide (a.2.2.1 < b.2.2.1) ||
            (decide (a.2.2.1 = b.2.2.1) && strLt a.2.2.2 b.2.2.2)))))

/-- `ProcessOrchestrator._order_batch`: Python `sorted` is a stable ascending
sort, embedded through the stable descending sort by the flipped comparison. -/
def order_batch (dir : List Employee) (batch : List AccessEvent) : List AccessEvent :=
  stableSortBy
    (fun a b => !batchKeyLt (orderBatchKey dir a) (orderBatchKey dir b))
    batch

/-- `ProcessOrchestrator.run_once` (`process_orchestrator.py` lines 91-119).
The loop draws batches of two events; an empty first batch ends the loop with
the empty assignment list.  A non-empty batch is ordered, its employees are
looked up, and then line 109 calls `self.seat_allocator.prepare_batch_baseline`:
`SeatAllocator` (`allocator.py` lines 10-21, a slots dataclass) defines no such
attribute, so the attribute access raises `AttributeError` before any event of
the batch is processed. -/
def run_once (dir : List Employee) (events : List AccessEvent) :
    Except PyError (List Assignment) :=
  let batch := events.take 2
  if batch.isEmpty then Except.ok []
  else
    let ordered_batch := order_batch dir batch
    let _batch_employees :=
      ordered_batch.filterMap (fun ev => get_employee dir ev.employee_id)
    Except.error PyError.attributeError

/-- Modelled from the spec: the base-score formula of section 4.3, whose
`teamOnlyAnchor` and `buildingLoad` ingredients have no counterpart in
`allocator.py`.  `specTeamOnlyZoneCount` counts occupied slots whose
actual-or-template team equals the entity's team, ignoring department. -/
def specTeamOnlyZoneCount (emp : Employee) (all : List Seat) (z : ZoneKey) : Nat :=
  ((occupiedSeats all).filter
    (fun s => decide (effTeam s = emp.team) && decide (zoneOf s = z))).length

/-- Modelled from the spec: the `teamOnlyAnchor` of section 4.1, the zone
maximizing the team-only count, ties to the first-seen zone. -/
def specTeamOnlyAnchor (emp : Employee) (all : List Seat) : Option ZoneKey :=
  argmaxFirst (specTeamOnlyZoneCount emp all)
    (firstSeen (((occupiedSeats all).filter
      (fun s => decide (effTeam s = emp.team))).map zoneOf))

/-- Modelled from the spec: `buildingLoad[building]` of section 4.1, absent
from `allocator.py`. -/
def buildingLoad (all : List Seat) (b : String) : Nat :=
  ((occupiedSeats all).filter (fun s => decide (s.building = b))).length

/-- Modelled from the spec: the additive score of section 4.3 with the
specified constants (+20000 teamDeptAnchor, +9000 teamOnlyAnchor,
1100 and 700 per matching occupant, 18 and 5 and 2 utilization, -500 and -300
locality against the preferred floor, 0.35 cluster pull, 0.001 suffix
tie-break). -/
def spec_base_score (emp : Employee) (all : List Seat) (pf : String × String)
    (s : Seat) : ℚ :=
  let z := zoneOf s
  (if teamAnchor emp all = some z then (20000 : ℚ) else 0) +
  (if specTeamOnlyAnchor emp all = some z then (9000 : ℚ) else 0) +
  (teamZoneCount emp all z : ℚ) * 1100 +
  (if deptAnchor emp all = some z then (8000 : ℚ) else 0) +
  (deptZoneCount emp all z : ℚ) * 700 +
  (zoneLoad all z : ℚ) * 18 + (floorLoad all (floorOfZone z) : ℚ) * 5 +
  (buildingLoad all z.1 : ℚ) * 2 -
  (if floorOfZone z ≠ pf then (500 : ℚ) else 0) -
  (if z.1 ≠ pf.1 then (300 : ℚ) else 0) +
  (match seatSuffixNum s with
   | none => 0
   | some n =>
     (if teamSuffixCount emp all z ≠ 0 then
       -(|(n : ℚ) - (teamSuffixTotal emp all z : ℚ) / (teamSuffixCount emp all z : ℚ)| *
         (35 / 100))
      else 0) - (n : ℚ) * (1 / 1000))

/-- Modelled from the spec: the lookahead term of section 4.4 with the
specified coefficients 130 and 90. -/
def spec_lookahead (emp : Employee) (all : List Seat) (s : Seat) : ℚ :=
  let z := zoneOf s
  ((availableSameTeam emp all z - 1 : Nat) : ℚ) * 130 +
    ((availableSameDept emp all z - 1 : Nat) : ℚ) * 90

/-- Observable view of an occupied slot for aggregate purposes: identity, zone
and effective (actual-or-template) department/team. -/
def seatView (s : Seat) : String × ZoneKey × String × String :=
  (s.seat_id, zoneOf s, effDept s, effTeam s)

/-- Decision-relevant part of an assignment: everything but `assigned_at`. -/
def stripTime (a : Assignment) :
    String × String × String × String × String × String :=
  (a.employee_id, a.seat_id, a.building, a.floor, a.zone, a.reasoning)

/-- Amended preferred-floor precedence (C7): the department anchor when the
lock engaged, else the team-and-department anchor, else the department anchor,
else the most-loaded floor, else the smallest candidate floor. -/
def spec_preferred_floor_amended (emp : Employee) (all : List Seat)
    (dept_locked : Bool) (cands : List Seat) : String × String :=
  ((if dept_locked then (deptAnchor emp all).map floorOfZone else none).orElse
    (fun _ => ((teamAnchor emp all).map floorOfZone).orElse
      (fun _ => ((deptAnchor emp all).map floorOfZone).orElse
        (fun _ => argmaxFirst (floorLoad all) (floorKeys all))))).getD
    (minPair (cands.map floorOf))

/-- Does the implemented score charge the off-department-anchor penalty? -/
def offDeptAnchorPenalty (emp : Employee) (all : List Seat) (z : ZoneKey) : Bool :=
  match deptAnchor emp all with
  | some a => decide (z ≠ a) && decide (0 < availableSameDept emp all a)
  | none => false

/-- Does suffix `n` land in the preferred team section of seat `s`? -/
def sectionHit (emp : Employee) (all : List Seat) (s : Seat) (n : Nat) : Bool :=
  match preferred_team_section emp all s with
  | some sec => decide (sec.1 ≤ n) && decide (n ≤ sec.2)
  | none => false

/-- Does suffix `n` land in the preferred department half of zone `z`? -/
def halfHit (emp : Employee) (all : List Seat) (z : ZoneKey) (n : Nat) : Bool :=
  match preferred_department_slot emp all z with
  | some dept_slot =>
    if dept_slot = 0 then decide (1 ≤ n) && decide (n ≤ 50)
    else decide (51 ≤ n) && decide (n ≤ 100)
  | none => false

/-- Pull of suffix `n` toward the occupied team cluster of zone `z`. -/
def clusterPull (emp : Employee) (all : List Seat) (z : ZoneKey) (n : Nat) : ℚ :=
  if teamSuffixCount emp all z = 0 then 0
  else
    |(n : ℚ) - (teamSuffixTotal emp all z : ℚ) / (teamSuffixCount emp all z : ℚ)| / 4

/-- Is suffix `n` the next seat after the occupied team run of zone `z`? -/
def nextInRun (emp : Employee) (all : List Seat) (z : ZoneKey) (n : Nat) : Bool :=
  decide (0 < teamSuffixCount emp all z) && decide (teamMaxSuffix emp all z + 1 = n)

/-- Suffix-dependent block of the amended base-score closed form. -/
def suffixTermsAmended (emp : Employee) (all : List Seat) (s : Seat) : ℚ :=
  match seatSuffixNum s with
  | none => 0
  | some n =>
    (if sectionHit emp all s n then (300 : ℚ) else 0) +
      (if halfHit emp all (zoneOf s) n then (700 : ℚ) else 0) -
      clusterPull emp all (zoneOf s) n +
      (if nextInRun emp all (zoneOf s) n then (2600 : ℚ) else 0) -
      (n : ℚ) / 1000

/-- Amended closed form of the implemented base score (C4): a team-cohesion
block, a department-cohesion block, a utilization block, an anchor-locality
penalty block and the seat-suffix block. -/
def amended_base_score (emp : Employee) (all : List Seat) (s : Seat) : ℚ :=
  let z := zoneOf s
  ((if teamAnchor emp all = some z then (10000 : ℚ) else 0) +
      1200 * (teamZoneCount emp all z : ℚ) +
      (if s.team_cluster = emp.team then (500 : ℚ) else 0)) +
    ((if deptAnchor emp all = some z then (8500 : ℚ) else 0) +
      600 * (deptZoneCount emp all z : ℚ) +
      (if s.department = emp.department then (80 : ℚ) else 0)) +
    (450 * (zoneLoad all z : ℚ) + 700 * ((zoneDeptList all z).length : ℚ)) -
    ((if anchorFloorDiff (teamAnchor emp all) z then (180 : ℚ) else 0) +
      (if anchorFloorDiff (deptAnchor emp all) z then (220 : ℚ) else 0) +
      (if offDeptAnchorPenalty emp all z then (3500 : ℚ) else 0)) +
    suffixTermsAmended emp all s

/-- Concrete employee used by the counterexamples and witnesses below. -/
def emp1 : Employee :=
  { employee_id := "E1", card_id := "C1", name := "A", email := "a@x",
    phone := "1", department := "ENG", team := "T1" }

/-- Occupied seat of zone (B1, F1, A) with a same-department, other-team
occupant profile. -/
def oA1 : Seat :=
  { seat_id := "S-B1-F1-A-001", building := "B1", floor := "F1", zone := "A",
    department := "ENG", team_cluster := "T2", status := SeatStatus.occupied }

/-- Second such occupied seat. -/
def oA2 : Seat := { oA1 with seat_id := "S-B1-F1-A-002" }

/-- Third such occupied seat. -/
def oA3 : Seat := { oA1 with seat_id := "S-B1-F1-A-003" }

/-- Occupied seat of zone (B1, F2, A) matching the employee's department and
team: the team-and-department anchor of the scenario. -/
def oZ2 : Seat :=
  { seat_id := "S-B1-F2-A-001", building := "B1", floor := "F2", zone := "A",
    department := "ENG", team_cluster := "T1", status := SeatStatus.occupied }

/-- Available candidate in the department-anchor zone (B1, F1, A). -/
def c1 : Seat :=
  { seat_id := "S-B1-F1-A-010", building := "B1", floor := "F1", zone := "A",
    department := "ENG", team_cluster := "T1" }

/-- Available candidate in the team-anchor zone (B1, F2, A). -/
def c2 : Seat :=
  { seat_id := "S-B1-F2-A-010", building := "B1", floor := "F2", zone := "A",
    department := "ENG", team_cluster := "T1" }

/-- Inventory where the department anchor (three ENG occupants in zone
(B1, F1, A)) differs from the team anchor (one ENG, T1 occupant in
(B1, F2, A)). -/
def all37 : List Seat := [oA1, oA2, oA3, oZ2, c1, c2]

/-- Candidates of the split-anchor scenario, one per zone. -/
def cands37 : List Seat := [c1, c2]

/-- Occupied team seat with numeric suffix 10. -/
def o10 : Seat :=
  { seat_id := "S-10", building := "B1", floor := "F1", zone := "A",
    department := "ENG", team_cluster := "T1", status := SeatStatus.occupied }

/-- Available seat with suffix 9, one below the occupied cluster. -/
def c9 : Seat :=
  { seat_id := "S-9", building := "B1", floor := "F1", zone := "A",
    department := "ENG", team_cluster := "T1" }

/-- Available seat with suffix 11, one above the occupied cluster. -/
def c11 : Seat :=
  { seat_id := "S-11", building := "B1", floor := "F1", zone := "A",
    department := "ENG", team_cluster := "T1" }

/-- Inventory of the scoring counterexample: suffixes 9 and 11 compete around
an occupied team seat with suffix 10. -/
def all45 : List Seat := [o10, c9, c11]

/-- Candidates of the scoring counterexample. -/
def cands45 : List Seat := [c9, c11]

/-- Occupied anchor seat of the cohesion witness scenario. -/
def s1o : Seat :=
  { seat_id := "S-B1-F1-A-001", building := "B1", floor := "F1", zone := "A",
    department := "ENG", team_cluster := "T1", status := SeatStatus.occupied }

/-- Available same-zone candidate of the cohesion witness scenario. -/
def s1a : Seat :=
  { seat_id := "S-B1-F1-A-002", building := "B1", floor := "F1", zone := "A",
    department := "ENG", team_cluster := "T1" }

/-- Available other-zone candidate of the cohesion witness scenario. -/
def s1b : Seat :=
  { seat_id := "S-B1-F1-B-001", building := "B1", floor := "F1", zone := "B",
    department := "ENG", team_cluster := "T1" }

/-- Inventory of the cohesion witness scenario. -/
def allS1 : List Seat := [s1o, s1a, s1b]

/-- Candidates of the cohesion witness scenario. -/
def candsS1 : List Seat := [s1a, s1b]

/-- The decision the engine returns on the cohesion witness scenario. -/
def asgS1 : Assignment :=
  { employee_id := "E1", seat_id := "S-B1-F1-A-002", building := "B1",
    floor := "F1", zone := "A",
    reasoning :=
      reasoningText "S-B1-F1-A-002" (some ("B1", "F1", "A"))
        (some ("B1", "F1", "A")) true false true true
    assigned_at := 0 }

/-- Occupied seat whose occupant department was set to the empty string. -/
def s8 : Seat :=
  { seat_id := "S-1", building := "B1", floor := "F1", zone := "A",
    department := "ENG", team_cluster := "T1", status := SeatStatus.occupied,
    occupied_department := some "" }

/-- Fully-occupied one-seat inventory for the no-candidate path. -/
def s9occ : Seat :=
  { seat_id := "S-X", building := "B1", floor := "F1", zone := "A",
    department := "ENG", team_cluster := "T1", status := SeatStatus.occupied }

/-- Access event used by the no-candidate witness. -/
def ev9 : AccessEvent := { employee_id := "E1", card_id := "C1", entered_at := 5 }

theorem mem_insertSortedBy {α : Type} {le : α → α → Bool} {x a : α} :
    ∀ {l : List α}, a ∈ insertSortedBy le x l ↔ a = x ∨ a ∈ l := by
  intro l
  induction l with
  | nil => simp [insertSortedBy]
  | cons y ys ih =>
    cases h : le y x with
    | true => simp [insertSortedBy, h]
    | false =>
      simp only [insertSortedBy, h, Bool.false_eq_true, if_false, List.mem_cons, ih]
      tauto

theorem length_insertSortedBy {α : Type} {le : α → α → Bool} {x : α} :
    ∀ {l : List α}, (insertSortedBy le x l).length = l.length + 1 := by
  intro l
  induction l with
  | nil => rfl
  | cons y ys ih =>
    cases h : le y x with
    | true => simp [insertSortedBy, h]
    | false =>
      simp only [insertSortedBy, h, Bool.false_eq_true, if_false, List.length_cons, ih]

theorem mem_stableSortBy {α : Type} {le : α → α → Bool} {a : α} :
    ∀ {l : List α}, a ∈ stableSortBy le l ↔ a ∈ l := by
  intro l
  induction l with
  | nil => simp [stableSortBy]
  | cons y ys ih =>
    show a ∈ insertSortedBy le y (stableSortBy le ys) ↔ _
    rw [mem_insertSortedBy]
    simp [ih]

theorem length_stableSortBy {α : Type} {le : α → α → Bool} :
    ∀ {l : List α}, (stableSortBy le l).length = l.length := by
  intro l
  induction l with
  | nil => rfl
  | cons y ys ih =>
    show (insertSortedBy le y (stableSortBy le ys)).length = _
    rw [length_insertSortedBy, ih, List.length_cons]

theorem pairwise_insertSortedBy {α : Type} (f : α → ℚ) (x : α) :
    ∀ {l : List α}, l.Pairwise (fun a b => f b ≤ f a) →
      (insertSortedBy (fun a b => decide (f a ≤ f b)) x l).Pairwise
        (fun a b => f b ≤ f a) := by
  intro l
  induction l with
  | nil => intro _; simp [insertSortedBy]
  | cons y ys ih =>
    intro h
    rw [List.pairwise_cons] at h
    by_cases hle : f y ≤ f x
    · have : (fun a b => decide (f a ≤ f b)) y x = true := by simpa using hle
      simp only [insertSortedBy, this, if_pos]
      refine List.pairwise_cons.mpr ⟨?_, List.pairwise_cons.mpr ⟨h.1, h.2⟩⟩
      intro b hb
      rcases List.mem_cons.mp hb with hb | hb
      · exact hb ▸ hle
      · exact le_trans (h.1 b hb) hle
    · have hcond : ¬ ((fun a b => decide (f a ≤ f b)) y x = true) := by simpa using hle
      simp only [insertSortedBy, if_neg hcond]
      refine List.pairwise_cons.mpr ⟨?_, ih h.2⟩
      intro b hb
      rcases mem_insertSortedBy.mp hb with hb | hb
      · exact hb ▸ le_of_lt (lt_of_not_le hle)
      · exact h.1 b hb

theorem pairwise_stableSortBy {α : Type} (f : α → ℚ) :
    ∀ (l : List α),
      (stableSortBy (fun a b => decide (f a ≤ f b)) l).Pairwise
        (fun a b => f b ≤ f a) := by
  intro l
  induction l with
  | nil => simp [stableSortBy]
  | cons y ys ih => exact pairwise_insertSortedBy f y ih

theorem mem_of_mem_narrowFloor {pf : String × String} {cands : List Seat} {s : Seat} :
    s ∈ (narrowFloor pf cands).1 → s ∈ cands := by
  intro h
  unfold narrowFloor at h
  cases hsf : cands.filter (fun s => decide (floorOf s = pf)) with
  | nil => rw [hsf] at h; exact h
  | cons a l =>
    rw [hsf] at h
    have h2 : s ∈ a :: l := h
    rw [← hsf] at h2
    exact List.mem_of_mem_filter h2

theorem narrowFloor_ne_nil {pf : String × String} {cands : List Seat}
    (h : cands ≠ []) : (narrowFloor pf cands).1 ≠ [] := by
  unfold narrowFloor
  cases hsf : cands.filter (fun s => decide (floorOf s = pf)) with
  | nil => exact h
  | cons a l => simp

theorem mem_of_mem_narrowBuilding {pf : String × String} {c1 : List Seat × Bool}
    {s : Seat} : s ∈ (narrowBuilding pf c1).1 → s ∈ c1.1 := by
  intro h
  unfold narrowBuilding at h
  cases hsb : c1.1.filter (fun s => decide (s.building = pf.1)) with
  | nil => rw [hsb] at h; exact h
  | cons a l =>
    rw [hsb] at h
    have h2 : s ∈ a :: l := h
    rw [← hsb] at h2
    exact List.mem_of_mem_filter h2

theorem narrowBuilding_ne_nil {pf : String × String} {c1 : List Seat × Bool}
    (h : c1.1 ≠ []) : (narrowBuilding pf c1).1 ≠ [] := by
  unfold narrowBuilding
  cases hsb : c1.1.filter (fun s => decide (s.building = pf.1)) with
  | nil => exact h
  | cons a l => simp

theorem mem_of_mem_narrowStage {pf : String × String} {cands : List Seat} {s : Seat} :
    s ∈ (narrowStage pf cands).1 → s ∈ cands := by
  intro h
  exact mem_of_mem_narrowFloor (mem_of_mem_narrowBuilding h)

theorem narrowStage_ne_nil {pf : String × String} {cands : List Seat}
    (h : cands ≠ []) : (narrowStage pf cands).1 ≠ [] :=
  narrowBuilding_ne_nil (narrowFloor_ne_nil h)

theorem capOk_of_mem_filterStage {emp : Employee} {all cands : List Seat} {s : Seat} :
    s ∈ (filterStage emp all cands).1 → capOk emp all s = true := by
  intro h
  unfold filterStage at h
  by_cases hc :
    ((enforce_zone_department_cap emp all (lockPass emp all cands).1).isEmpty &&
      (lockPass emp all cands).2) = true
  all_goals simp only [hc, ite_true, ite_false, Bool.false_eq_true] at h
  · exact List.of_mem_filter h
  · exact List.of_mem_filter h

theorem mem_of_mem_filterStage {emp : Employee} {all cands : List Seat} {s : Seat} :
    s ∈ (filterStage emp all cands).1 → s ∈ cands := by
  intro h
  unfold filterStage at h
  by_cases hc :
    ((enforce_zone_department_cap emp all (lockPass emp all cands).1).isEmpty &&
      (lockPass emp all cands).2) = true
  all_goals simp only [hc, ite_true, ite_false, Bool.false_eq_true] at h
  · exact List.mem_of_mem_filter h
  · have h1 : s ∈ (lockPass emp all cands).1 := List.mem_of_mem_filter h
    unfold lockPass at h1
    cases hda : deptAnchor emp all with
    | none => simpa [hda] using h1
    | some a =>
      simp only [hda] at h1
      by_cases hz : (cands.filter (fun s => decide (zoneOf s = a))).isEmpty
      all_goals simp only [hz, ite_true, ite_false] at h1
      · exact h1
      · exact List.mem_of_mem_filter h1

theorem mem_stageCands_of_mem_ranked {emp : Employee} {cands all : List Seat}
    {bw : Nat} {s : Seat} :
    s ∈ ranked_with_lookahead emp cands all bw → s ∈ stageCands emp cands all := by
  intro h
  have hb : s ∈ beam emp cands all bw := mem_stableSortBy.mp h
  have hf : s ∈ frontier emp cands all := List.mem_of_mem_take hb
  have hn : s ∈ stageNarrowed emp cands all := mem_stableSortBy.mp hf
  exact mem_of_mem_narrowStage hn

theorem selectedSeat_mem {emp : Employee} {cands all : List Seat} {bw : Nat}
    {sel : Seat} (h : selectedSeat emp cands all bw = some sel) :
    sel ∈ stageCands emp cands all := by
  unfold selectedSeat at h
  cases hr : ranked_with_lookahead emp cands all bw with
  | nil => rw [hr] at h; exact absurd h (by simp)
  | cons top rest =>
    rw [hr] at h
    have htop : top ∈ ranked_with_lookahead emp cands all bw := by
      rw [hr]; exact List.mem_cons_self top rest
    cases hda : deptAnchor emp all with
    | none =>
      rw [hda] at h
      have : top = sel := by simpa using h
      exact this ▸ mem_stageCands_of_mem_ranked htop
    | some az =>
      rw [hda] at h
      dsimp only at h
      cases hfil : (top :: rest).filter (fun s => decide (zoneOf s = az)) with
      | nil =>
        rw [hfil] at h
        have : top = sel := by simpa using h
        exact this ▸ mem_stageCands_of_mem_ranked htop
      | cons a0 l0 =>
        rw [hfil] at h
        dsimp only at h
        by_cases hav : 0 < availableSameDept emp all az
        · rw [if_pos hav] at h
          have ha0 : a0 ∈ ranked_with_lookahead emp cands all bw := by
            have hm : a0 ∈ (top :: rest).filter (fun s => decide (zoneOf s = az)) := by
              rw [hfil]; exact List.mem_cons_self a0 l0
            rw [hr]
            exact List.mem_of_mem_filter hm
          have : a0 = sel := by simpa using h
          exact this ▸ mem_stageCands_of_mem_ranked ha0
        · rw [if_neg hav] at h
          have : top = sel := by simpa using h
          exact this ▸ mem_stageCands_of_mem_ranked htop

theorem setAdd_nodup {l : List String} {d : String} (h : l.Nodup) :
    (setAdd l d).Nodup := by
  unfold setAdd
  by_cases hd : d ∈ l
  · rw [if_pos hd]; exact h
  · rw [if_neg hd]
    simp [List.nodup_append, h, hd]

theorem foldl_setAdd_nodup :
    ∀ (l : List Seat) (acc : List String), acc.Nodup →
      (l.foldl (fun acc s => setAdd acc (effDept s)) acc).Nodup := by
  intro l
  induction l with
  | nil => intro acc h; exact h
  | cons s rest ih =>
    intro acc h
    exact ih (setAdd acc (effDept s)) (setAdd_nodup h)

theorem zoneDeptList_nodup (all : List Seat) (z : ZoneKey) :
    (zoneDeptList all z).Nodup := by
  unfold zoneDeptList
  exact foldl_setAdd_nodup _ [] List.nodup_nil

theorem card_toFinset_union_singleton {l : List String} (d : String) (hn : l.Nodup) :
    (l.toFinset ∪ {d}).card = deptCardWith l d := by
  unfold deptCardWith
  by_cases hd : d ∈ l
  · rw [if_pos hd]
    have he : l.toFinset ∪ {d} = l.toFinset :=
      Finset.union_eq_left.mpr (Finset.singleton_subset_iff.mpr (List.mem_toFinset.mpr hd))
    rw [he, List.toFinset_card_of_nodup hn]
  · rw [if_neg hd]
    rw [Finset.union_comm, ← Finset.insert_eq,
      Finset.card_insert_of_not_mem (fun hc => hd (List.mem_toFinset.mp hc)),
      List.toFinset_card_of_nodup hn]

/-- C1: every decision the engine produces names a winning zone whose set of
distinct departments among actually-occupied slots (the occupant department
when it overrides the template, else the template department), unioned with the
requesting employee's department, has at most 2 elements; every path to a
returned assignment only passes candidates accepted by the zone-department cap
filter. -/
theorem select_seat_zone_department_cap (emp : Employee) (cands all : List Seat)
    (bw now : Nat) (a : Assignment)
    (h : select_seat emp cands all bw now = some a) :
    ((zoneDeptList all (a.building, a.floor, a.zone)).toFinset ∪
      {emp.department}).card ≤ 2 := by
  unfold select_seat at h
  by_cases h1 : cands.isEmpty
  · rw [if_pos h1] at h; exact absurd h (by simp)
  rw [if_neg h1] at h
  by_cases h2 : (stageCands emp cands all).isEmpty
  · rw [if_pos h2] at h; exact absurd h (by simp)
  rw [if_neg h2] at h
  cases hsel : selectedSeat emp cands all bw with
  | none => rw [hsel] at h; exact absurd h (by simp)
  | some sel =>
    rw [hsel] at h
    simp only [Option.some.injEq] at h
    have hb : a.building = sel.building := by rw [← h]
    have hf : a.floor = sel.floor := by rw [← h]
    have hz : a.zone = sel.zone := by rw [← h]
    have hmem : sel ∈ (filterStage emp all cands).1 := selectedSeat_mem hsel
    have hcap := capOk_of_mem_filterStage hmem
    have hle : deptCardWith (zoneDeptList all (zoneOf sel)) emp.department ≤ 2 :=
      of_decide_eq_true hcap
    have hzz : (a.building, a.floor, a.zone) = zoneOf sel := by
      rw [hb, hf, hz]; rfl
    rw [hzz, card_toFinset_union_singleton emp.department (zoneDeptList_nodup all (zoneOf sel))]
    exact hle

/-- Witness for C1: the cap bound holds at the concrete decision of the
cohesion scenario. -/
theorem select_seat_zone_department_cap_witness :
    ((zoneDeptList allS1 (asgS1.building, asgS1.floor, asgS1.zone)).toFinset ∪
      {emp1.department}).card ≤ 2 :=
  select_seat_zone_department_cap emp1 candsS1 allS1 40 0 asgS1 (by decide)

/-- C2: whenever the access stream holds at least one pending event, run_once
raises AttributeError (it calls prepare_batch_baseline, which SeatAllocator
does not define); with an empty stream it returns the empty list. -/
theorem run_once_attribute_error (dir : List Employee) (ev : AccessEvent)
    (evs : List AccessEvent) :
    run_once dir (ev :: evs) = Except.error PyError.attributeError ∧
    run_once dir [] = Except.ok [] :=
  ⟨rfl, rfl⟩

/-- Counterexample for C5: with two available same-team seats in the zone the
implemented lookahead is 1 * 100 + 1 * 65 = 165, not the claimed
1 * 130 + 1 * 90 = 220. -/
theorem lookahead_constants_counterexample :
    lookahead_score emp1 all45 c9 = 165 ∧ spec_lookahead emp1 all45 c9 = 220 ∧
    lookahead_score emp1 all45 c9 ≠ spec_lookahead emp1 all45 c9 := by
  refine ⟨by decide, by decide, by decide⟩

theorem natPredCastQ (n : Nat) : ((n - 1 : Nat) : ℚ) = max 0 ((n : ℚ) - 1) := by
  cases n with
  | zero => simp
  | succ m =>
    have h1 : ((m + 1 - 1 : Nat) : ℚ) = (m : ℚ) := by norm_num
    have h2 : ((m + 1 : Nat) : ℚ) - 1 = (m : ℚ) := by push_cast; ring
    rw [h1, h2, max_eq_right (by positivity)]

/-- C5 amended: the lookahead term equals
max(0, availableSameTeamInZone - 1) * 100 + max(0, availableSameDeptInZone - 1) * 65,
with the counts over available slots of the zone whose template team and
department match the employee's. -/
theorem lookahead_score_closed_form (emp : Employee) (all : List Seat) (s : Seat) :
    lookahead_score emp all s =
      max 0 ((availableSameTeam emp all (zoneOf s) : ℚ) - 1) * 100 +
        max 0 ((availableSameDept emp all (zoneOf s) : ℚ) - 1) * 65 := by
  show ((availableSameTeam emp all (zoneOf s) - 1 : Nat) : ℚ) * 100 +
      ((availableSameDept emp all (zoneOf s) - 1 : Nat) : ℚ) * 65 = _
  rw [natPredCastQ, natPredCastQ]

/-- C9: an empty candidate list yields no assignment, and in that case the
orchestrator leaves every slot untouched (mark_occupied runs only on a
returned assignment). -/
theorem no_candidates_no_mutation :
    (∀ (emp : Employee) (all : List Seat) (bw now : Nat),
      select_seat emp [] all bw now = none) ∧
    (∀ (dir : List Employee) (bw : Nat) (inv : List Seat) (ev : AccessEvent)
      (now : Nat), available_seats inv = [] →
      process_event dir bw inv ev now = (none, inv)) := by
  constructor
  · intro emp all bw now; rfl
  · intro dir bw inv ev now hav
    unfold process_event
    cases hge : get_employee dir ev.employee_id with
    | none => rfl
    | some emp =>
      rw [hav]
      rfl

/-- Witness for C9 at a fully-occupied concrete inventory. -/
theorem no_candidates_no_mutation_witness :
    process_event [emp1] 40 [s9occ] ev9 0 = (none, [s9occ]) :=
  no_candidates_no_mutation.2 [emp1] 40 [s9occ] ev9 0 (by decide)

/-- C10: determinism — two invocations on identical inputs agree on employee,
seat identity, location triple and rationale, differing at most in the
assigned_at timestamp. -/
theorem select_seat_deterministic (emp : Employee) (cands all : List Seat)
    (bw t1 t2 : Nat) :
    (select_seat emp cands all bw t1).map stripTime =
      (select_seat emp cands all bw t2).map stripTime := by
  unfold select_seat
  by_cases h1 : cands.isEmpty
  · rw [if_pos h1, if_pos h1]
  rw [if_neg h1, if_neg h1]
  by_cases h2 : (stageCands emp cands all).isEmpty
  · rw [if_pos h2, if_pos h2]
  rw [if_neg h2, if_neg h2]
  cases hsel : selectedSeat emp cands all bw <;> rfl

/-- Counterexample for C3: the anchor lock keys on the department anchor, not
the team-and-department anchor — with split anchors, a cap-valid candidate
sits in the team anchor zone (B1, F2, A) yet the locked candidate set keeps a
seat of the department anchor zone (B1, F1, A) instead of being restricted to
the team anchor zone. -/
theorem anchor_lock_counterexample :
    teamAnchor emp1 all37 = some ("B1", "F2", "A") ∧
    c2 ∈ cands37 ∧ zoneOf c2 = ("B1", "F2", "A") ∧ capOk emp1 all37 c2 = true ∧
    c1 ∈ stageCands emp1 cands37 all37 ∧ zoneOf c1 ≠ ("B1", "F2", "A") := by
  refine ⟨by decide, by decide, by decide, by decide, by decide, by decide⟩

/-- Counterexample for C7: with split anchors and the lock engaged, the
preferred floor is the department anchor's (B1, F1), not the existing
team-and-department anchor's (B1, F2) as the claim requires. -/
theorem preferred_floor_counterexample :
    teamAnchor emp1 all37 = some ("B1", "F2", "A") ∧
    stagePF emp1 cands37 all37 = ("B1", "F1") ∧
    ("B1", "F1") ≠ (("B1", "F2") : String × String) := by
  refine ⟨by decide, by decide, by decide⟩

/-- Counterexample for C4: the implemented score orders suffix 11 above
suffix 9 (the +2600 next-in-run bonus), while the claimed formula with the
specification's constants orders 9 above 11 (pure suffix tie-break); the
induced relative orderings disagree. -/
theorem base_score_counterexample :
    spec_base_score emp1 all45 (stagePF emp1 cands45 all45) c9 >
      spec_base_score emp1 all45 (stagePF emp1 cands45 all45) c11 ∧
    base_score emp1 all45 c11 > base_score emp1 all45 c9 := by
  refine ⟨by decide, by decide⟩

/-- Counterexample for C8: an occupant department set to the empty string is
not authoritative — the zone-department aggregate records the template
department instead of the set (empty) occupant value. -/
theorem occupant_empty_string_counterexample :
    s8.occupied_department = some "" ∧ s8.department = "ENG" ∧
    zoneDeptList [s8] ("B1", "F1", "A") = ["ENG"] ∧
    zoneDeptList [s8] ("B1", "F1", "A") ≠ [""] := by
  refine ⟨by decide, by decide, by decide, by decide⟩

theorem filterMap_view_congr {β : Type}
    (g : String × ZoneKey × String × String → Option β) :
    ∀ (l l' : List Seat), l.map seatView = l'.map seatView →
      l.filterMap (fun s => g (seatView s)) = l'.filterMap (fun s => g (seatView s)) := by
  intro l
  induction l with
  | nil =>
    intro l' h
    cases l' with
    | nil => rfl
    | cons s' ls' => exact absurd h (by simp)
  | cons s ls ih =>
    intro l' h
    cases l' with
    | nil => exact absurd h (by simp)
    | cons s' ls' =>
      simp only [List.map_cons, List.cons.injEq] at h
      simp only [List.filterMap_cons, h.1, ih ls' h.2]

theorem count_filter_view_congr (q : String × ZoneKey × String × String → Bool) :
    ∀ (l l' : List Seat), l.map seatView = l'.map seatView →
      (l.filter (fun s => q (seatView s))).length =
        (l'.filter (fun s => q (seatView s))).length := by
  intro l
  induction l with
  | nil =>
    intro l' h
    cases l' with
    | nil => rfl
    | cons s' ls' => exact absurd h (by simp)
  | cons s ls ih =>
    intro l' h
    cases l' with
    | nil => exact absurd h (by simp)
    | cons s' ls' =>
      simp only [List.map_cons, List.cons.injEq] at h
      simp only [List.filter_cons, h.1]
      cases hq : q (seatView s') with
      | false => simpa using ih ls' h.2
      | true => simpa using ih ls' h.2

theorem foldl_setAdd_view_congr (z : ZoneKey) :
    ∀ (l l' : List Seat), l.map seatView = l'.map seatView →
      ∀ (acc : List String),
        (l.filter (fun s => decide (zoneOf s = z))).foldl
          (fun a s => setAdd a (effDept s)) acc =
        (l'.filter (fun s => decide (zoneOf s = z))).foldl
          (fun a s => setAdd a (effDept s)) acc := by
  intro l
  induction l with
  | nil =>
    intro l' h acc
    cases l' with
    | nil => rfl
    | cons s' ls' => exact absurd h (by simp)
  | cons s ls ih =>
    intro l' h acc
    cases l' with
    | nil => exact absurd h (by simp)
    | cons s' ls' =>
      simp only [List.map_cons, List.cons.injEq] at h
      have hz : zoneOf s = zoneOf s' := by
        have hc := congrArg (fun v => v.2.1) h.1
        simpa [seatView] using hc
      have hd : effDept s = effDept s' := by
        have hc := congrArg (fun v => v.2.2.1) h.1
        simpa [seatView] using hc
      simp only [List.filter_cons, ← hz]
      cases hc : decide (zoneOf s = z) with
      | false =>
        simp only [Bool.false_eq_true, if_false]
        exact ih ls' h.2 acc
      | true =>
        simp only [if_true, List.foldl_cons, ← hd]
        exact ih ls' h.2 (setAdd acc (effDept s))

/-- C8 amended: once set to a non-empty value, the occupant department/team
override the slot's template tags for every occupied-slot aggregate of a
decision; an occupant value of Python None or of the empty string falls back
to the template (Python or-falsiness).  The occupied-slot aggregates — zone
department sets, department/team zone counts and the suffix-clustering list —
depend on occupied slots only through their identity, zone and effective
department/team. -/
theorem occupant_value_precedence :
    (∀ (s : Seat) (d : String), s.occupied_department = some d → d ≠ "" →
      effDept s = d) ∧
    (∀ (s : Seat) (t : String), s.occupied_team = some t → t ≠ "" →
      effTeam s = t) ∧
    (∀ (emp : Employee) (all all' : List Seat),
      (occupiedSeats all).map seatView = (occupiedSeats all').map seatView →
      ∀ z : ZoneKey,
        zoneDeptList all z = zoneDeptList all' z ∧
        deptZoneCount emp all z = deptZoneCount emp all' z ∧
        teamZoneCount emp all z = teamZoneCount emp all' z ∧
        teamSuffixList emp all z = teamSuffixList emp all' z) := by
  refine ⟨?_, ?_, ?_⟩
  · intro s d hset hne
    unfold effDept
    rw [hset]
    exact if_neg hne
  · intro s t hset hne
    unfold effTeam
    rw [hset]
    exact if_neg hne
  · intro emp all all' h z
    refine ⟨?_, ?_, ?_, ?_⟩
    · exact foldl_setAdd_view_congr z _ _ h []
    · exact count_filter_view_congr
        (fun v => decide (v.2.2.1 = emp.department) && decide (v.2.1 = z)) _ _ h
    · exact count_filter_view_congr
        (fun v => (decide (v.2.2.1 = emp.department) &&
          decide (v.2.2.2 = emp.team)) && decide (v.2.1 = z)) _ _ h
    · exact filterMap_view_congr
        (fun v => if (decide (v.2.2.1 = emp.department) &&
            decide (v.2.2.2 = emp.team)) && decide (v.2.1 = z) then
          suffixNumOfId v.1 else none) _ _ h

/-- Witness for C8: a non-empty occupant department overrides the template. -/
theorem occupant_value_precedence_witness :
    effDept { s8 with occupied_department := some "OPS" } = "OPS" :=
  occupant_value_precedence.1 { s8 with occupied_department := some "OPS" }
    "OPS" rfl (by decide)

theorem stableSortBy_ne_nil {α : Type} {le : α → α → Bool} {l : List α}
    (h : l ≠ []) : stableSortBy le l ≠ [] := by
  intro hc
  apply h
  have hl := @length_stableSortBy α le l
  rw [hc] at hl
  exact List.length_eq_zero.mp hl.symm

theorem take_ne_nil_of_pos {α : Type} {l : List α} {n : Nat} (hn : 0 < n)
    (h : l ≠ []) : l.take n ≠ [] := by
  cases l with
  | nil => exact absurd rfl h
  | cons a t =>
    cases n with
    | zero => exact absurd hn (by omega)
    | succ m => simp

theorem ranked_ne_nil {emp : Employee} {cands all : List Seat} {bw : Nat}
    (hbw : 0 < bw) (h : stageCands emp cands all ≠ []) :
    ranked_with_lookahead emp cands all bw ≠ [] := by
  apply stableSortBy_ne_nil
  apply take_ne_nil_of_pos hbw
  apply stableSortBy_ne_nil
  exact narrowStage_ne_nil h

theorem selectedSeat_ne_none {emp : Employee} {cands all : List Seat} {bw : Nat}
    (h : ranked_with_lookahead emp cands all bw ≠ []) :
    selectedSeat emp cands all bw ≠ none := by
  unfold selectedSeat
  cases hr : ranked_with_lookahead emp cands all bw with
  | nil => exact absurd hr h
  | cons top rest =>
    cases deptAnchor emp all with
    | none => simp
    | some az =>
      dsimp only
      cases (top :: rest).filter (fun s => decide (zoneOf s = az)) with
      | nil => simp
      | cons a0 l0 =>
        dsimp only
        split <;> simp

theorem select_seat_none_iff {emp : Employee} {cands all : List Seat}
    {bw now : Nat} (hbw : 0 < bw) (hc : cands ≠ []) :
    select_seat emp cands all bw now = none ↔ stageCands emp cands all = [] := by
  unfold select_seat
  have hce : cands.isEmpty = false := by
    cases cands with
    | nil => exact absurd rfl hc
    | cons a t => rfl
  simp only [hce, Bool.false_eq_true, if_false]
  by_cases hsc : stageCands emp cands all = []
  · have : (stageCands emp cands all).isEmpty = true := by rw [hsc]; rfl
    simp [this, hsc]
  · have hie : (stageCands emp cands all).isEmpty = false := by
      cases hsc2 : stageCands emp cands all with
      | nil => exact absurd hsc2 hsc
      | cons a t => rfl
    simp only [hie, Bool.false_eq_true, if_false]
    cases hsel : selectedSeat emp cands all bw with
    | none => exact absurd hsel (selectedSeat_ne_none (ranked_ne_nil hbw hsc))
    | some sel => simp [hsc]

/-- C3 amended: the anchor lock keys on the department anchor `deptAnchor`
(the zone with the most same-department occupants), not on the
team-and-department anchor; the lock fires when at least one raw (pre-cap)
candidate lies in that zone, after which the cap filter runs; if the capped
locked set is empty the engine falls back to the cap-valid subset of the
original candidates with lock_relaxed set, and (for a positive beam width) it
returns no assignment exactly when the surviving set is empty. -/
theorem anchor_lock_and_relaxation (emp : Employee) (cands all : List Seat)
    (bw now : Nat) (az : ZoneKey)
    (h1 : deptAnchor emp all = some az)
    (h2 : cands.filter (fun s => decide (zoneOf s = az)) ≠ [])
    (hbw : 0 < bw) :
    stageLocked emp cands all = true ∧
    (enforce_zone_department_cap emp all
        (cands.filter (fun s => decide (zoneOf s = az))) = [] →
      stageCands emp cands all = enforce_zone_department_cap emp all cands ∧
      stageRelaxed emp cands all = true) ∧
    (enforce_zone_department_cap emp all
        (cands.filter (fun s => decide (zoneOf s = az))) ≠ [] →
      stageCands emp cands all =
        enforce_zone_department_cap emp all
          (cands.filter (fun s => decide (zoneOf s = az))) ∧
      stageRelaxed emp cands all = false) ∧
    (select_seat emp cands all bw now = none ↔ stageCands emp cands all = []) := by
  have hlock : lockPass emp all cands =
      (cands.filter (fun s => decide (zoneOf s = az)), true) := by
    unfold lockPass
    rw [h1]
    dsimp only
    cases hdz : cands.filter (fun s => decide (zoneOf s = az)) with
    | nil => exact absurd hdz h2
    | cons a t => simp
  have hcands : cands ≠ [] := by
    intro hc
    rw [hc] at h2
    exact h2 rfl
  refine ⟨?_, ?_, ?_, select_seat_none_iff hbw hcands⟩
  · unfold stageLocked filterStage
    rw [hlock]
    by_cases hc2 : enforce_zone_department_cap emp all
        (cands.filter (fun s => decide (zoneOf s = az))) = []
    · have : (enforce_zone_department_cap emp all
          (cands.filter (fun s => decide (zoneOf s = az)))).isEmpty = true := by
        rw [hc2]; rfl
      simp [this]
    · have : (enforce_zone_department_cap emp all
          (cands.filter (fun s => decide (zoneOf s = az)))).isEmpty = false := by
        cases hc3 : enforce_zone_department_cap emp all
            (cands.filter (fun s => decide (zoneOf s = az))) with
        | nil => exact absurd hc3 hc2
        | cons a t => rfl
      simp [this]
  · intro hc2
    have hie : (enforce_zone_department_cap emp all
        (cands.filter (fun s => decide (zoneOf s = az)))).isEmpty = true := by
      rw [hc2]; rfl
    unfold stageCands stageRelaxed filterStage
    rw [hlock]
    simp [hie]
  · intro hc2
    have hie : (enforce_zone_department_cap emp all
        (cands.filter (fun s => decide (zoneOf s = az)))).isEmpty = false := by
      cases hc3 : enforce_zone_department_cap emp all
          (cands.filter (fun s => decide (zoneOf s = az))) with
      | nil => exact absurd hc3 hc2
      | cons a t => rfl
    unfold stageCands stageRelaxed filterStage
    rw [hlock]
    simp [hie]

/-- Witness for C3 amended, on the split-anchor scenario: the lock engages on
the department anchor zone, the capped locked set [c1] is non-empty, no
relaxation fires, and the engine does return an assignment. -/
theorem anchor_lock_and_relaxation_witness :
    stageLocked emp1 cands37 all37 = true ∧
    (enforce_zone_department_cap emp1 all37
        (cands37.filter (fun s => decide (zoneOf s = ("B1", "F1", "A")))) = [] →
      stageCands emp1 cands37 all37 =
        enforce_zone_department_cap emp1 all37 cands37 ∧
      stageRelaxed emp1 cands37 all37 = true) ∧
    (enforce_zone_department_cap emp1 all37
        (cands37.filter (fun s => decide (zoneOf s = ("B1", "F1", "A")))) ≠ [] →
      stageCands emp1 cands37 all37 =
        enforce_zone_department_cap emp1 all37
          (cands37.filter (fun s => decide (zoneOf s = ("B1", "F1", "A")))) ∧
      stageRelaxed emp1 cands37 all37 = false) ∧
    (select_seat emp1 cands37 all37 40 0 = none ↔
      stageCands emp1 cands37 all37 = []) :=
  anchor_lock_and_relaxation emp1 cands37 all37 40 0 ("B1", "F1", "A")
    (by decide) (by decide) (by decide)

/-- C6: when the department anchor exists, some beam member lies in it, and
that zone still has available same-department capacity, the returned winner is
the first member of the lookahead ranking that lies in the anchor zone — the
highest-ranked such member, the ranking being sorted by descending
score-plus-lookahead. -/
theorem anchor_preservation_safeguard (emp : Employee) (cands all : List Seat)
    (bw now : Nat) (az : ZoneKey) (s0 : Seat) (rest : List Seat) (asg : Assignment)
    (h1 : deptAnchor emp all = some az)
    (h2 : (ranked_with_lookahead emp cands all bw).filter
        (fun s => decide (zoneOf s = az)) = s0 :: rest)
    (h3 : 0 < availableSameDept emp all az)
    (h4 : select_seat emp cands all bw now = some asg) :
    asg.seat_id = s0.seat_id ∧ asg.building = s0.building ∧
    asg.floor = s0.floor ∧ asg.zone = s0.zone ∧
    (ranked_with_lookahead emp cands all bw).Pairwise
      (fun x y => totalOf emp cands all bw y ≤ totalOf emp cands all bw x) := by
  have hsel0 : selectedSeat emp cands all bw = some s0 := by
    unfold selectedSeat
    cases hr : ranked_with_lookahead emp cands all bw with
    | nil => rw [hr] at h2; exact absurd h2 (by simp)
    | cons top rest2 =>
      rw [hr] at h2
      rw [h1]
      dsimp only
      rw [h2]
      dsimp only
      rw [if_pos h3]
  unfold select_seat at h4
  by_cases hc1 : cands.isEmpty
  · rw [if_pos hc1] at h4; exact absurd h4 (by simp)
  rw [if_neg hc1] at h4
  by_cases hc2 : (stageCands emp cands all).isEmpty
  · rw [if_pos hc2] at h4; exact absurd h4 (by simp)
  rw [if_neg hc2] at h4
  rw [hsel0] at h4
  simp only [Option.some.injEq] at h4
  refine ⟨by rw [← h4], by rw [← h4], by rw [← h4], by rw [← h4], ?_⟩
  exact pairwise_stableSortBy (totalOf emp cands all bw) (beam emp cands all bw)

/-- Witness for C6 on the cohesion scenario: the anchor zone member s1a wins. -/
theorem anchor_preservation_safeguard_witness :
    asgS1.seat_id = s1a.seat_id ∧ asgS1.building = s1a.building ∧
    asgS1.floor = s1a.floor ∧ asgS1.zone = s1a.zone ∧
    (ranked_with_lookahead emp1 candsS1 allS1 40).Pairwise
      (fun x y => totalOf emp1 candsS1 allS1 40 y ≤ totalOf emp1 candsS1 allS1 40 x) :=
  anchor_preservation_safeguard emp1 candsS1 allS1 40 0 ("B1", "F1", "A")
    s1a [] asgS1 (by decide) (by decide) (by decide) (by decide)

theorem narrowFloor_of_exists {pf : String × String} {cands : List Seat}
    (hex : ∃ t ∈ cands, floorOf t = pf) :
    narrowFloor pf cands = (cands.filter (fun s => decide (floorOf s = pf)), true) := by
  unfold narrowFloor
  cases hf : cands.filter (fun s => decide (floorOf s = pf)) with
  | nil =>
    obtain ⟨t, ht, hft⟩ := hex
    have hm : t ∈ cands.filter (fun s => decide (floorOf s = pf)) :=
      List.mem_filter.mpr ⟨ht, by simpa using hft⟩
    rw [hf] at hm
    exact absurd hm (by simp)
  | cons a l => rfl

theorem narrowFloor_of_forall {pf : String × String} {cands : List Seat}
    (hnex : ∀ t ∈ cands, floorOf t ≠ pf) :
    narrowFloor pf cands = (cands, false) := by
  unfold narrowFloor
  have hf : cands.filter (fun s => decide (floorOf s = pf)) = [] := by
    rw [List.filter_eq_nil_iff]
    intro a ha
    simpa using hnex a ha
  rw [hf]

theorem narrowBuilding_of_exists {pf : String × String} {c1 : List Seat × Bool}
    (hex : ∃ t ∈ c1.1, t.building = pf.1) :
    narrowBuilding pf c1 =
      (c1.1.filter (fun s => decide (s.building = pf.1)), c1.2, true) := by
  unfold narrowBuilding
  cases hf : c1.1.filter (fun s => decide (s.building = pf.1)) with
  | nil =>
    obtain ⟨t, ht, hft⟩ := hex
    have hm : t ∈ c1.1.filter (fun s => decide (s.building = pf.1)) :=
      List.mem_filter.mpr ⟨ht, by simpa using hft⟩
    rw [hf] at hm
    exact absurd hm (by simp)
  | cons a l => rfl

theorem narrowBuilding_of_forall {pf : String × String} {c1 : List Seat × Bool}
    (hnex : ∀ t ∈ c1.1, t.building ≠ pf.1) :
    narrowBuilding pf c1 = (c1.1, c1.2, false) := by
  unfold narrowBuilding
  have hf : c1.1.filter (fun s => decide (s.building = pf.1)) = [] := by
    rw [List.filter_eq_nil_iff]
    intro a ha
    simpa using hnex a ha
  rw [hf]

/-- C7 amended: the preferred floor is chosen with the precedence
deptAnchor-when-locked, else teamDeptAnchor, else deptAnchor, else the
most-loaded known floor (ties to the first floor seen among occupied slots),
else the lexicographically smallest (building, floor) among the remaining
candidates; there is no teamOnlyAnchor in the implementation.  The narrowing
is soft: it restricts to the preferred floor only when some candidate is on
it, else to its building only when some candidate is in it, else it leaves
the set unchanged — and it never empties a non-empty candidate set. -/
theorem preferred_floor_precedence_amended (emp : Employee) (all : List Seat)
    (locked : Bool) (cands : List Seat) (h : cands ≠ []) :
    preferred_floor emp all locked cands =
      spec_preferred_floor_amended emp all locked cands ∧
    (narrowStage (preferred_floor emp all locked cands) cands).1 ≠ [] ∧
    (∀ s ∈ (narrowStage (preferred_floor emp all locked cands) cands).1,
      s ∈ cands) ∧
    ((∃ t ∈ cands, floorOf t = preferred_floor emp all locked cands) →
      ∀ s ∈ (narrowStage (preferred_floor emp all locked cands) cands).1,
        floorOf s = preferred_floor emp all locked cands) ∧
    ((∀ t ∈ cands, floorOf t ≠ preferred_floor emp all locked cands) →
      (∃ t ∈ cands, t.building = (preferred_floor emp all locked cands).1) →
      ∀ s ∈ (narrowStage (preferred_floor emp all locked cands) cands).1,
        s.building = (preferred_floor emp all locked cands).1) ∧
    ((∀ t ∈ cands, floorOf t ≠ preferred_floor emp all locked cands) →
      (∀ t ∈ cands, t.building ≠ (preferred_floor emp all locked cands).1) →
      (narrowStage (preferred_floor emp all locked cands) cands).1 = cands) := by
  refine ⟨?_, narrowStage_ne_nil h, fun s hs => mem_of_mem_narrowStage hs, ?_, ?_, ?_⟩
  · unfold preferred_floor spec_preferred_floor_amended
    cases locked with
    | true =>
      cases hda : deptAnchor emp all with
      | some da => simp [Option.orElse]
      | none =>
        cases hta : teamAnchor emp all with
        | some ta => simp [Option.orElse]
        | none =>
          cases harg : argmaxFirst (floorLoad all) (floorKeys all) with
          | some f => simp [harg, Option.orElse]
          | none => simp [harg, Option.orElse]
    | false =>
      cases hda : deptAnchor emp all with
      | some da =>
        cases hta : teamAnchor emp all with
        | some ta => simp [Option.orElse]
        | none => simp [Option.orElse]
      | none =>
        cases hta : teamAnchor emp all with
        | some ta => simp [Option.orElse]
        | none =>
          cases harg : argmaxFirst (floorLoad all) (floorKeys all) with
          | some f => simp [harg, Option.orElse]
          | none => simp [harg, Option.orElse]
  · intro hex s hs
    unfold narrowStage at hs
    rw [narrowFloor_of_exists hex] at hs
    have hm := mem_of_mem_narrowBuilding hs
    have hm2 : s ∈ cands.filter
        (fun s => decide (floorOf s = preferred_floor emp all locked cands)) := hm
    exact of_decide_eq_true (List.mem_filter.mp hm2).2
  · intro hnex hexb s hs
    unfold narrowStage at hs
    rw [narrowFloor_of_forall hnex] at hs
    rw [narrowBuilding_of_exists hexb] at hs
    have hs2 : s ∈ cands.filter
        (fun s => decide (s.building = (preferred_floor emp all locked cands).1)) := hs
    exact of_decide_eq_true (List.mem_filter.mp hs2).2
  · intro hnex hnexb
    unfold narrowStage
    rw [narrowFloor_of_forall hnex]
    rw [narrowBuilding_of_forall hnexb]

/-- Witness for C7 amended on the split-anchor scenario with the lock flag. -/
theorem preferred_floor_precedence_amended_witness :
    preferred_floor emp1 all37 true cands37 =
      spec_preferred_floor_amended emp1 all37 true cands37 ∧
    (narrowStage (preferred_floor emp1 all37 true cands37) cands37).1 ≠ [] ∧
    (∀ s ∈ (narrowStage (preferred_floor emp1 all37 true cands37) cands37).1,
      s ∈ cands37) ∧
    ((∃ t ∈ cands37, floorOf t = preferred_floor emp1 all37 true cands37) →
      ∀ s ∈ (narrowStage (preferred_floor emp1 all37 true cands37) cands37).1,
        floorOf s = preferred_floor emp1 all37 true cands37) ∧
    ((∀ t ∈ cands37, floorOf t ≠ preferred_floor emp1 all37 true cands37) →
      (∃ t ∈ cands37, t.building = (preferred_floor emp1 all37 true cands37).1) →
      ∀ s ∈ (narrowStage (preferred_floor emp1 all37 true cands37) cands37).1,
        s.building = (preferred_floor emp1 all37 true cands37).1) ∧
    ((∀ t ∈ cands37, floorOf t ≠ preferred_floor emp1 all37 true cands37) →
      (∀ t ∈ cands37, t.building ≠ (preferred_floor emp1 all37 true cands37).1) →
      (narrowStage (preferred_floor emp1 all37 true cands37) cands37).1 = cands37) :=
  preferred_floor_precedence_amended emp1 all37 true cands37 (by decide)

theorem penalty_term_eq (emp : Employee) (all : List Seat) (z : ZoneKey) :
    (match deptAnchor emp all with
     | some a => if z ≠ a ∧ 0 < availableSameDept emp all a then (3500 : ℚ) else 0
     | none => 0) = (if offDeptAnchorPenalty emp all z then (3500 : ℚ) else 0) := by
  unfold offDeptAnchorPenalty
  cases deptAnchor emp all with
  | none => simp
  | some a =>
    by_cases h1 : z ≠ a <;> by_cases h2 : 0 < availableSameDept emp all a <;>
      simp [h1, h2]

theorem section_term_eq (emp : Employee) (all : List Seat) (s : Seat) (n : Nat) :
    (match preferred_team_section emp all s with
     | some sec => if sec.1 ≤ n ∧ n ≤ sec.2 then (300 : ℚ) else 0
     | none => 0) = (if sectionHit emp all s n then (300 : ℚ) else 0) := by
  unfold sectionHit
  cases preferred_team_section emp all s with
  | none => simp
  | some sec => by_cases h1 : sec.1 ≤ n <;> by_cases h2 : n ≤ sec.2 <;> simp [h1, h2]

theorem half_term_eq (emp : Employee) (all : List Seat) (z : ZoneKey) (n : Nat) :
    (match preferred_department_slot emp all z with
     | some dept_slot =>
       let dept_half : Nat × Nat := if dept_slot = 0 then (1, 50) else (51, 100)
       if dept_half.1 ≤ n ∧ n ≤ dept_half.2 then (700 : ℚ) else 0
     | none => 0) = (if halfHit emp all z n then (700 : ℚ) else 0) := by
  unfold halfHit
  cases preferred_department_slot emp all z with
  | none => simp
  | some slot =>
    by_cases hs : slot = 0
    · simp only [hs, if_true]
      by_cases h1 : 1 ≤ n <;> by_cases h2 : n ≤ 50 <;> simp [h1, h2]
    · simp only [hs, if_false]
      by_cases h1 : 51 ≤ n <;> by_cases h2 : n ≤ 100 <;> simp [h1, h2]

theorem cluster_term_eq (emp : Employee) (all : List Seat) (z : ZoneKey) (n : Nat) :
    (if teamSuffixCount emp all z ≠ 0 then
      |(n : ℚ) - (teamSuffixTotal emp all z : ℚ) / (teamSuffixCount emp all z : ℚ)| *
        (1 / 4)
     else 0) = clusterPull emp all z n := by
  unfold clusterPull
  by_cases h : teamSuffixCount emp all z = 0
  · simp [h]
  · simp only [h, ne_eq, not_false_eq_true, if_true, if_false]
    ring

theorem run_term_eq (emp : Employee) (all : List Seat) (z : ZoneKey) (n : Nat) :
    (if 0 < teamSuffixCount emp all z ∧ teamMaxSuffix emp all z + 1 = n then
      (2600 : ℚ) else 0) = (if nextInRun emp all z n then (2600 : ℚ) else 0) := by
  unfold nextInRun
  by_cases h1 : 0 < teamSuffixCount emp all z <;>
    by_cases h2 : teamMaxSuffix emp all z + 1 = n <;> simp [h1, h2]

theorem base_score_eq_amended (emp : Employee) (all : List Seat) (s : Seat) :
    base_score emp all s = amended_base_score emp all s := by
  cases hn : seatSuffixNum s with
  | none =>
    unfold base_score amended_base_score suffixTermsAmended
    rw [hn]
    dsimp only
    rw [penalty_term_eq]
    ring
  | some n =>
    unfold base_score amended_base_score suffixTermsAmended
    rw [hn]
    dsimp only
    rw [penalty_term_eq, section_term_eq, half_term_eq, run_term_eq,
      cluster_term_eq]
    ring

/-- C4 amended: the implemented base score is the additive closed form with
the code's constants — 10000 for the team-and-department anchor zone, 1200
per same-team occupant, 500 for a template team match, 8500 for the
department anchor zone, 600 per same-department occupant, 80 for a template
department match, 450 per occupied slot of the zone, 700 per distinct
department of the zone, penalties 180 and 220 for leaving an anchor's floor
and 3500 for leaving a still-open department anchor, bonuses 300 and 700 for
the preferred section and department half, a 1/4-weighted pull toward the
mean same-team suffix, 2600 for the next suffix in the team run, and a
suffix/1000 tie-break — and the frontier ordering is exactly descending in
this score (ties broken stably by candidate order). -/
theorem base_score_closed_form (emp : Employee) (cands all : List Seat) (s : Seat) :
    base_score emp all s = amended_base_score emp all s ∧
    (frontier emp cands all).Pairwise
      (fun x y => scoreOf emp cands all y ≤ scoreOf emp cands all x) :=
  ⟨base_score_eq_amended emp all s,
    pairwise_stableSortBy (scoreOf emp cands all) (stageNarrowed emp cands all)⟩

end SeatAlloc
